import Mathlib

/-!
Verification development for the KIIAREN domain-ownership and invite-link
subsystem.

The definitions below are a shallow embedding of:
  - `convex/domainActions.ts` (`lookupDnsTxt`, `verifyDomain`),
  - `packages/core/src/domain/types.ts` (the `Domain` / `InviteLink` data model;
    its constant `DNS_TXT_PREFIX = "kiiaren-verification="` is inlined as a
    string literal below),
  - the domain-verification React hooks and the workspace transformation of the
    web client,
and, where the backing Convex modules (`convex/domains.ts`,
`convex/inviteLinks.ts`) are not part of the repository snapshot, models built
from the specification (each such definition is marked `Modelled from the
spec:`).

Effectful TypeScript is embedded by explicit state passing: the document store
becomes a lookup function or a list of records, DNS I/O becomes a value of an
outcome type, and a Convex action handler becomes a total function returning
`Except` (where `.error` stands for a thrown exception and `.ok` for a returned
value) together with the list of status writes it issued.
-/

namespace Kiiaren

/-! ## Data model (`packages/core/src/domain/types.ts`) -/

/-- `DomainStatus` from `types.ts`: `'pending' | 'verified' | 'failed'`. -/
inductive DomainStatus where
  | pending
  | verified
  | failed
deriving DecidableEq, Repr

/-- The `Domain` record from `types.ts` (a domain-ownership claim).
Entity ids and timestamps are embedded as `Nat`. -/
structure Domain where
  id : Nat
  workspaceId : Nat
  domain : String
  verificationToken : String
  status : DomainStatus
  verifiedAt : Option Nat
  createdAt : Nat
  createdBy : Nat
deriving DecidableEq, Repr

/-! ## DNS resolver adapter (`convex/domainActions.ts`, `lookupDnsTxt`) -/

/-- One entry of the `Answer` array of the DNS-over-HTTPS JSON response. -/
structure DnsAnswer where
  name : String
  type : Nat
  TTL : Nat
  data : String
deriving DecidableEq, Repr

/-- Outcome of the `fetch` + JSON-parse pipeline in `lookupDnsTxt`:
the fetch may reject, the HTTP status may be non-OK (the code then throws
and catches its own error), the body may fail to parse, or a parsed
`DnsResponse` is obtained whose `Answer` field is optional. -/
inductive DnsQueryOutcome where
  | networkError
  | httpError (status : Nat)
  | parseError
  | ok (answer : Option (List DnsAnswer))
deriving DecidableEq, Repr

/-- `true` on every outcome that makes `lookupDnsTxt` take its `catch` path
or its `!data.Answer` path. -/
def DnsQueryOutcome.isFault : DnsQueryOutcome → Bool
  | .ok (some _) => false
  | _ => true

/-- `data.replace(/^"|"$/g, '')` on the character list: remove one leading
quote if present, then one trailing quote if present. -/
def stripQuotes (s : List Char) : List Char :=
  let s1 := match s with
    | '"' :: rest => rest
    | other => other
  match s1.reverse with
  | '"' :: rest => rest.reverse
  | _ => s1

/-- `data.replace(/\\"/g, '"')`: left-to-right, non-overlapping replacement of
a backslash followed by a quote with a quote. -/
def unescapeQuotes : List Char → List Char
  | [] => []
  | '\\' :: '"' :: rest => '"' :: unescapeQuotes rest
  | c :: rest => c :: unescapeQuotes rest

/-- JS `String.prototype.trim()`: drop whitespace characters from both ends
(embedded over the character list so that it evaluates by kernel reduction). -/
def trimStr (s : String) : String :=
  String.mk (((s.data.dropWhile Char.isWhitespace).reverse.dropWhile
    Char.isWhitespace).reverse)

/-- The per-record normalization performed inside `lookupDnsTxt`'s `.map`:
quote stripping followed by quote unescaping. -/
def normalizeTxtData (s : String) : String :=
  String.mk (unescapeQuotes (stripQuotes s.data))

/-- `lookupDnsTxt` from `convex/domainActions.ts`: any transport/parse fault is
caught and converted into `[]`; an absent `Answer` yields `[]`; otherwise the
entries with `type === 16` are kept and their `data` normalized. -/
def lookupDnsTxt : DnsQueryOutcome → List String
  | .networkError => []
  | .httpError _ => []
  | .parseError => []
  | .ok none => []
  | .ok (some answer) =>
      (answer.filter (fun a => a.type == 16)).map (fun a => normalizeTxtData a.data)

/-! ## `verifyDomain` action (`convex/domainActions.ts`) -/

/-- The structured `{ success: boolean; error?: string }` result of the
`verifyDomain` action handler. -/
structure VerifyResult where
  success : Bool
  error : Option String
deriving DecidableEq, Repr

/-- A status write issued through `internal.domains.updateStatus`: either
status `verified` together with `verifiedAt`, or status `failed`. -/
inductive StatusWrite where
  | verified (domainId : Nat) (verifiedAt : Nat)
  | failed (domainId : Nat)
deriving DecidableEq, Repr

/-- The error message built when `txtRecords.length === 0`. -/
def noRecordsMsg (dnsName : String) : String :=
  "No TXT records found at " ++ (dnsName ++
    ". Please add the DNS record and wait for propagation (usually 5-15 minutes).")

/-- The error message built when records were found but none matched. -/
def mismatchMsg (dnsName : String) (txtRecords : List String) : String :=
  "TXT records found at " ++ (dnsName ++
    (" but none match the expected value. Found: " ++ String.intercalate ", " txtRecords))

/-- The `verifyDomain` action handler. The store read `api.domains.getById` is
embedded as `getById`, the DNS world as `dns`, and `Date.now()` as `now`.
The result is `Except.error` if the handler throws (it never does) and
`Except.ok (result, writes)` where `writes` collects the
`internal.domains.updateStatus` mutations, in order. -/
def verifyDomain (getById : Nat → Option Domain) (dns : String → DnsQueryOutcome)
    (now : Nat) (domainId : Nat) : Except String (VerifyResult × List StatusWrite) :=
  match getById domainId with
  | none => Except.ok ({ success := false, error := some "Domain not found" }, [])
  | some domain =>
      let dnsName := "_kiiaren-verification." ++ domain.domain
      let expectedValue := "kiiaren-verification=" ++ domain.verificationToken
      let txtRecords := lookupDnsTxt (dns dnsName)
      let isVerified := txtRecords.any (fun record => trimStr record == expectedValue)
      if isVerified then
        Except.ok ({ success := true, error := none }, [StatusWrite.verified domainId now])
      else if txtRecords.isEmpty then
        Except.ok ({ success := false, error := some (noRecordsMsg dnsName) },
          [StatusWrite.failed domainId])
      else
        Except.ok ({ success := false, error := some (mismatchMsg dnsName txtRecords) },
          [StatusWrite.failed domainId])

/-- `sub` occurs as a contiguous substring of `s`. -/
def StrContains (s sub : String) : Prop :=
  ∃ a b : String, s = a ++ (sub ++ b)

/-- A sample claim record used to instantiate theorems at concrete inputs. -/
def sampleDomain : Domain :=
  { id := 1, workspaceId := 2, domain := "acme.com", verificationToken := "abc123",
    status := DomainStatus.pending, verifiedAt := none, createdAt := 0, createdBy := 3 }

/-- A sample DNS answer entry carrying the matching challenge record. -/
def sampleAnswer : DnsAnswer :=
  { name := "_kiiaren-verification.acme.com", type := 16, TTL := 300,
    data := "\"kiiaren-verification=abc123\"" }

/-- A faulted DNS query yields no TXT records. -/
theorem lookupDnsTxt_eq_nil_of_isFault (o : DnsQueryOutcome) (h : o.isFault = true) :
    lookupDnsTxt o = [] := by
  cases o with
  | networkError => rfl
  | httpError s => rfl
  | parseError => rfl
  | ok answer =>
      cases answer with
      | none => rfl
      | some entries => simp [DnsQueryOutcome.isFault] at h

/-- The match test over the adapter's output, characterized over the raw
`Answer` entries: some type-16 entry's `data`, once normalized and trimmed,
equals the expected value. -/
theorem lookupDnsTxt_any_iff (entries : List DnsAnswer) (expected : String) :
    ((lookupDnsTxt (DnsQueryOutcome.ok (some entries))).any
        (fun r => trimStr r == expected) = true) ↔
      ∃ a ∈ entries, a.type = 16 ∧ trimStr (normalizeTxtData a.data) = expected := by
  simp only [lookupDnsTxt, List.any_eq_true, List.mem_map, List.mem_filter,
    beq_iff_eq]
  constructor
  · rintro ⟨r, ⟨a, ⟨ha, hty⟩, hnorm⟩, htrim⟩
    exact ⟨a, ha, hty, by rw [hnorm, htrim]⟩
  · rintro ⟨a, ha, hty, htrim⟩
    exact ⟨normalizeTxtData a.data, ⟨a, ⟨ha, hty⟩, rfl⟩, htrim⟩

/-- `verifyDomain` on a matching DNS state: success and a single `verified`
write carrying `verifiedAt = now`. -/
theorem verifyDomain_eq_of_match (getById : Nat → Option Domain)
    (dns : String → DnsQueryOutcome) (now domainId : Nat) (d : Domain)
    (hd : getById domainId = some d)
    (hany : (lookupDnsTxt (dns ("_kiiaren-verification." ++ d.domain))).any
      (fun record => trimStr record == "kiiaren-verification=" ++ d.verificationToken) = true) :
    verifyDomain getById dns now domainId =
      Except.ok ({ success := true, error := none },
        [StatusWrite.verified domainId now]) := by
  unfold verifyDomain
  rw [hd]
  simp only [hany, if_true]

/-- `verifyDomain` when the lookup yields no records: failure, a single
`failed` write, and the no-records message. -/
theorem verifyDomain_eq_of_noRecords (getById : Nat → Option Domain)
    (dns : String → DnsQueryOutcome) (now domainId : Nat) (d : Domain)
    (hd : getById domainId = some d)
    (hnil : lookupDnsTxt (dns ("_kiiaren-verification." ++ d.domain)) = []) :
    verifyDomain getById dns now domainId =
      Except.ok
        ({ success := false,
           error := some (noRecordsMsg ("_kiiaren-verification." ++ d.domain)) },
         [StatusWrite.failed domainId]) := by
  unfold verifyDomain
  rw [hd]
  simp only [hnil, List.any_nil, List.isEmpty_nil, Bool.false_eq_true, if_false, if_true]

/-- `verifyDomain` when records were found but none matched: failure, a single
`failed` write, and the mismatch message listing the found records. -/
theorem verifyDomain_eq_of_mismatch (getById : Nat → Option Domain)
    (dns : String → DnsQueryOutcome) (now domainId : Nat) (d : Domain)
    (hd : getById domainId = some d)
    (hne : lookupDnsTxt (dns ("_kiiaren-verification." ++ d.domain)) ≠ [])
    (hany : (lookupDnsTxt (dns ("_kiiaren-verification." ++ d.domain))).any
      (fun record => trimStr record == "kiiaren-verification=" ++ d.verificationToken) = false) :
    verifyDomain getById dns now domainId =
      Except.ok
        ({ success := false,
           error := some (mismatchMsg ("_kiiaren-verification." ++ d.domain)
             (lookupDnsTxt (dns ("_kiiaren-verification." ++ d.domain)))) },
         [StatusWrite.failed domainId]) := by
  unfold verifyDomain
  rw [hd]
  simp only [hany, Bool.false_eq_true, if_false]
  rw [if_neg]
  simp [List.isEmpty_iff, hne]

/-! ## Claim theorems about `verifyDomain` and `lookupDnsTxt` -/

/-- Claim C2: for a claim with token `T` and domain `D`, `verifyDomain` succeeds
iff some TXT record of the DNS answer with `type = 16`, after stripping
surrounding quotes, unescaping `\"` to `"` and trimming whitespace, is exactly
(case-sensitively) equal to `"kiiaren-verification=" ++ T`; a case-mismatched
record or one merely containing `T` as a substring does not verify. -/
theorem verifyDomain_exactness (getById : Nat → Option Domain)
    (dns : String → DnsQueryOutcome) (now domainId : Nat) (d : Domain)
    (entries : List DnsAnswer)
    (hd : getById domainId = some d)
    (hdns : dns ("_kiiaren-verification." ++ d.domain) =
      DnsQueryOutcome.ok (some entries)) :
    verifyDomain getById dns now domainId =
        Except.ok ({ success := true, error := none },
          [StatusWrite.verified domainId now]) ↔
      ∃ a ∈ entries, a.type = 16 ∧
        trimStr (normalizeTxtData a.data) =
          "kiiaren-verification=" ++ d.verificationToken := by
  rw [← lookupDnsTxt_any_iff entries ("kiiaren-verification=" ++ d.verificationToken)]
  constructor
  · intro h
    by_contra hany
    rw [Bool.not_eq_true, ← hdns] at hany
    by_cases hnil : lookupDnsTxt (dns ("_kiiaren-verification." ++ d.domain)) = []
    · rw [verifyDomain_eq_of_noRecords getById dns now domainId d hd hnil] at h
      simp at h
    · rw [verifyDomain_eq_of_mismatch getById dns now domainId d hd hnil hany] at h
      simp at h
  · intro hany
    rw [← hdns] at hany
    exact verifyDomain_eq_of_match getById dns now domainId d hd hany

/-- Claim C3: on an existing claim, `verifyDomain` always returns a structured
`{success, error?}` result (never a thrown exception) together with exactly one
definite status write: `verified` with `verifiedAt = now` when some record
matches, `failed` otherwise — on every attempt, repeats included (the theorem
holds for a claim record of any current status). -/
theorem verifyDomain_definite_write (getById : Nat → Option Domain)
    (dns : String → DnsQueryOutcome) (now domainId : Nat) (d : Domain)
    (hd : getById domainId = some d) :
    ∃ res writes, verifyDomain getById dns now domainId = Except.ok (res, writes) ∧
      writes.length = 1 ∧
      (if (lookupDnsTxt (dns ("_kiiaren-verification." ++ d.domain))).any
            (fun r => trimStr r == "kiiaren-verification=" ++ d.verificationToken)
       then res = { success := true, error := none } ∧
            writes = [StatusWrite.verified domainId now]
       else res.success = false ∧ (∃ m, res.error = some m) ∧
            writes = [StatusWrite.failed domainId]) := by
  by_cases hany : (lookupDnsTxt (dns ("_kiiaren-verification." ++ d.domain))).any
      (fun record => trimStr record == "kiiaren-verification=" ++ d.verificationToken) = true
  · exact ⟨{ success := true, error := none }, [StatusWrite.verified domainId now],
      verifyDomain_eq_of_match getById dns now domainId d hd hany, rfl,
      by rw [if_pos hany]; exact ⟨rfl, rfl⟩⟩
  · rw [Bool.not_eq_true] at hany
    by_cases hnil : lookupDnsTxt (dns ("_kiiaren-verification." ++ d.domain)) = []
    · exact ⟨{ success := false,
               error := some (noRecordsMsg ("_kiiaren-verification." ++ d.domain)) },
        [StatusWrite.failed domainId],
        verifyDomain_eq_of_noRecords getById dns now domainId d hd hnil, rfl,
        by rw [if_neg (by simp [hany])]; exact ⟨rfl, ⟨_, rfl⟩, rfl⟩⟩
    · exact ⟨{ success := false,
               error := some (mismatchMsg ("_kiiaren-verification." ++ d.domain)
                 (lookupDnsTxt (dns ("_kiiaren-verification." ++ d.domain)))) },
        [StatusWrite.failed domainId],
        verifyDomain_eq_of_mismatch getById dns now domainId d hd hnil hany, rfl,
        by rw [if_neg (by simp [hany])]; exact ⟨rfl, ⟨_, rfl⟩, rfl⟩⟩

/-- Claim C3 witness: at a concrete store holding the sample claim and a DNS
world answering with the matching record, the structured result and the single
`verified` write are produced. -/
theorem verifyDomain_definite_write_witness :
    ∃ res writes,
      verifyDomain (fun _ => some sampleDomain) (fun _ => DnsQueryOutcome.ok (some [sampleAnswer]))
          99 1 = Except.ok (res, writes) ∧
      writes.length = 1 ∧
      (if (lookupDnsTxt ((fun _ => DnsQueryOutcome.ok (some [sampleAnswer]))
              ("_kiiaren-verification." ++ sampleDomain.domain))).any
            (fun r => trimStr r == "kiiaren-verification=" ++ sampleDomain.verificationToken)
       then res = { success := true, error := none } ∧
            writes = [StatusWrite.verified 1 99]
       else res.success = false ∧ (∃ m, res.error = some m) ∧
            writes = [StatusWrite.failed 1]) :=
  verifyDomain_definite_write (fun _ => some sampleDomain)
    (fun _ => DnsQueryOutcome.ok (some [sampleAnswer])) 99 1 sampleDomain rfl


/-- Claim C2 witness: with the sample claim and a DNS answer holding the quoted
record `"kiiaren-verification=abc123"`, verification succeeds. -/
theorem verifyDomain_exactness_witness :
    verifyDomain (fun _ => some sampleDomain)
        (fun _ => DnsQueryOutcome.ok (some [sampleAnswer])) 99 1 =
      Except.ok ({ success := true, error := none }, [StatusWrite.verified 1 99]) :=
  (verifyDomain_exactness (fun _ => some sampleDomain)
      (fun _ => DnsQueryOutcome.ok (some [sampleAnswer])) 99 1 sampleDomain
      [sampleAnswer] rfl rfl).mpr
    ⟨sampleAnswer, by decide, by decide, by decide⟩

/-- Claim C4: `lookupDnsTxt` converts every transport or parse fault (network
error, non-OK HTTP status, malformed JSON) and every `Answer`-less response
into the empty record list; every record it does return comes from an `Answer`
entry with `type = 16`; consequently `verifyDomain` on a faulted DNS query
returns the structured "no records found" failure instead of propagating
the fault. -/
theorem lookupDnsTxt_fault_tolerance :
    (lookupDnsTxt DnsQueryOutcome.networkError = [] ∧
      lookupDnsTxt DnsQueryOutcome.parseError = [] ∧
      lookupDnsTxt (DnsQueryOutcome.ok none) = [] ∧
      ∀ status, lookupDnsTxt (DnsQueryOutcome.httpError status) = []) ∧
    (∀ entries r, r ∈ lookupDnsTxt (DnsQueryOutcome.ok (some entries)) →
      ∃ a ∈ entries, a.type = 16 ∧ r = normalizeTxtData a.data) ∧
    (∀ getById dns now domainId d, getById domainId = some d →
      (dns ("_kiiaren-verification." ++ d.domain)).isFault = true →
      verifyDomain getById dns now domainId =
        Except.ok
          ({ success := false,
             error := some (noRecordsMsg ("_kiiaren-verification." ++ d.domain)) },
           [StatusWrite.failed domainId])) := by
  refine ⟨⟨rfl, rfl, rfl, fun _ => rfl⟩, ?_, ?_⟩
  · intro entries r hr
    simp only [lookupDnsTxt, List.mem_map, List.mem_filter, beq_iff_eq] at hr
    rcases hr with ⟨a, ⟨ha, hty⟩, hnorm⟩
    exact ⟨a, ha, hty, hnorm.symm⟩
  · intro getById dns now domainId d hd hfault
    exact verifyDomain_eq_of_noRecords getById dns now domainId d hd
      (lookupDnsTxt_eq_nil_of_isFault _ hfault)

/-- Claim C5 counterexample: calling `verifyDomain` with a `domainId` that
references no claim does not abort with a hard error — the handler returns the
structured negative result `{ success: false, error: 'Domain not found' }`
(an `Except.ok` value, not an `Except.error`) and issues no status write. -/
theorem verifyDomain_missing_claim_counterexample :
    verifyDomain (fun _ => none) (fun _ => DnsQueryOutcome.ok none) 0 0 =
      Except.ok ({ success := false, error := some "Domain not found" }, []) ∧
    (verifyDomain (fun _ => none) (fun _ => DnsQueryOutcome.ok none) 0 0).isOk = true :=
  ⟨rfl, rfl⟩

/-- Claim C5 (amended): when `verifyDomain` is called with a `domainId` that
references no existing claim, the not-found failure is returned to the caller
as the structured negative result `{ success: false, error: 'Domain not
found' }` with no status write, rather than being raised as a hard error. -/
theorem verifyDomain_missing_claim_structured (getById : Nat → Option Domain)
    (dns : String → DnsQueryOutcome) (now domainId : Nat)
    (h : getById domainId = none) :
    verifyDomain getById dns now domainId =
      Except.ok ({ success := false, error := some "Domain not found" }, []) := by
  unfold verifyDomain
  rw [h]

/-- Claim C5 witness: the amended statement at a concrete empty store. -/
theorem verifyDomain_missing_claim_structured_witness :
    verifyDomain (fun _ => none) (fun _ => DnsQueryOutcome.networkError) 7 3 =
      Except.ok ({ success := false, error := some "Domain not found" }, []) :=
  verifyDomain_missing_claim_structured (fun _ => none)
    (fun _ => DnsQueryOutcome.networkError) 7 3 rfl

/-- Claim C8: when `verifyDomain` fails, the error message contains the exact
DNS name queried (`"_kiiaren-verification." ++ domain`); when zero TXT records
were found it also contains the propagation hint mentioning `5-15 minutes`,
and when records were found but none matched it instead contains the literal
comma-separated list of the found record values. -/
theorem verifyDomain_diagnostics (getById : Nat → Option Domain)
    (dns : String → DnsQueryOutcome) (now domainId : Nat) (d : Domain)
    (hd : getById domainId = some d) :
    (lookupDnsTxt (dns ("_kiiaren-verification." ++ d.domain)) = [] →
      ∃ msg, verifyDomain getById dns now domainId =
          Except.ok ({ success := false, error := some msg },
            [StatusWrite.failed domainId]) ∧
        StrContains msg ("_kiiaren-verification." ++ d.domain) ∧
        StrContains msg "5-15 minutes") ∧
    (∀ records, lookupDnsTxt (dns ("_kiiaren-verification." ++ d.domain)) = records →
      records ≠ [] →
      records.any (fun r => trimStr r == "kiiaren-verification=" ++ d.verificationToken)
        = false →
      ∃ msg, verifyDomain getById dns now domainId =
          Except.ok ({ success := false, error := some msg },
            [StatusWrite.failed domainId]) ∧
        StrContains msg ("_kiiaren-verification." ++ d.domain) ∧
        StrContains msg (String.intercalate ", " records)) := by
  constructor
  · intro hnil
    refine ⟨noRecordsMsg ("_kiiaren-verification." ++ d.domain),
      verifyDomain_eq_of_noRecords getById dns now domainId d hd hnil, ?_, ?_⟩
    · exact ⟨"No TXT records found at ",
        ". Please add the DNS record and wait for propagation (usually 5-15 minutes).",
        rfl⟩
    · refine ⟨"No TXT records found at " ++ (("_kiiaren-verification." ++ d.domain) ++
        ". Please add the DNS record and wait for propagation (usually "), ").", ?_⟩
      have h2 : ". Please add the DNS record and wait for propagation (usually 5-15 minutes)." =
          ". Please add the DNS record and wait for propagation (usually " ++
            ("5-15 minutes" ++ ").") := rfl
      rw [noRecordsMsg, h2]
      simp [String.append_assoc]
  · intro records hrec hne hany
    rw [← hrec]
    refine ⟨mismatchMsg ("_kiiaren-verification." ++ d.domain)
        (lookupDnsTxt (dns ("_kiiaren-verification." ++ d.domain))),
      verifyDomain_eq_of_mismatch getById dns now domainId d hd (hrec ▸ hne)
        (hrec ▸ hany), ?_, ?_⟩
    · exact ⟨"TXT records found at ",
        " but none match the expected value. Found: " ++ String.intercalate ", "
          (lookupDnsTxt (dns ("_kiiaren-verification." ++ d.domain))), by
        rw [mismatchMsg]⟩
    · refine ⟨"TXT records found at " ++ (("_kiiaren-verification." ++ d.domain) ++
        " but none match the expected value. Found: "), "", ?_⟩
      rw [mismatchMsg]
      simp [String.append_assoc]

/-- Claim C8 witness: with the sample claim and an empty DNS answer, the
failure message contains `_kiiaren-verification.acme.com` and the 5-15 minutes
propagation hint. -/
theorem verifyDomain_diagnostics_witness :
    ∃ msg, verifyDomain (fun _ => some sampleDomain) (fun _ => DnsQueryOutcome.ok none)
          0 1 =
        Except.ok ({ success := false, error := some msg }, [StatusWrite.failed 1]) ∧
      StrContains msg ("_kiiaren-verification." ++ sampleDomain.domain) ∧
      StrContains msg "5-15 minutes" :=
  (verifyDomain_diagnostics (fun _ => some sampleDomain)
    (fun _ => DnsQueryOutcome.ok none) 0 1 sampleDomain rfl).1 rfl


/-! ## Domain-verification hooks (`apps/web` domain hooks file) -/

/-- A backend call issued while a hook renders (`useQuery` subscribes to the
named Convex query; `useMutation`/`useAction` only create references and issue
nothing until their returned callback is invoked, which never happens during
render). -/
inductive BackendCall where
  | query (name : String)
deriving DecidableEq, Repr

/-- What a hook invocation does: `thrown callsBefore msg` embeds a `throw new
Error(msg)` reached after issuing `callsBefore`; `rendered calls` a normal
render that issued `calls`. -/
inductive HookOutcome where
  | thrown (callsBefore : List BackendCall) (msg : String)
  | rendered (calls : List BackendCall)
deriving DecidableEq, Repr

/-- The `not implemented` message template the domain hooks throw for a
non-Convex provider. -/
def notImplementedMsg (providerId op : String) : String :=
  "[" ++ (providerId ++ ("] " ++ (op ++ (" is not implemented. " ++
    "See docs/EDITIONING.md for self-host status."))))

/-- `useAddDomain`: acquires the mutation reference, throws for a non-Convex
provider, otherwise renders without issuing a backend call. -/
def useAddDomain (providerId : String) : HookOutcome :=
  if providerId ≠ "convex" then
    HookOutcome.thrown [] (notImplementedMsg providerId "domains.add")
  else
    HookOutcome.rendered []

/-- `useVerifyDomain`: acquires the action reference, throws for a non-Convex
provider, otherwise renders without issuing a backend call. -/
def useVerifyDomain (providerId : String) : HookOutcome :=
  if providerId ≠ "convex" then
    HookOutcome.thrown [] (notImplementedMsg providerId "domains.verify")
  else
    HookOutcome.rendered []

/-- `useListDomains`: throws for a non-Convex provider before its `useQuery`
call; on Convex it subscribes to `api.domains.listDomains`. -/
def useListDomains (providerId : String) (workspaceId : Nat) : HookOutcome :=
  if providerId ≠ "convex" then
    HookOutcome.thrown [] (notImplementedMsg providerId "domains.list")
  else
    HookOutcome.rendered [BackendCall.query "domains.listDomains"]

/-- `useRemoveDomain`: acquires the mutation reference, throws for a non-Convex
provider, otherwise renders without issuing a backend call. -/
def useRemoveDomain (providerId : String) : HookOutcome :=
  if providerId ≠ "convex" then
    HookOutcome.thrown [] (notImplementedMsg providerId "domains.remove")
  else
    HookOutcome.rendered []

/-- `useGetVerificationInstructions`: throws for a non-Convex provider before
its `useQuery` call; on Convex it subscribes unless the `domainId` argument is
absent (the `'skip'` case). -/
def useGetVerificationInstructions (providerId : String) (domainId : Option Nat) :
    HookOutcome :=
  if providerId ≠ "convex" then
    HookOutcome.thrown [] (notImplementedMsg providerId "domains.getVerificationInstructions")
  else
    HookOutcome.rendered
      (match domainId with
        | some _ => [BackendCall.query "domains.getVerificationInstructions"]
        | none => [])

/-- Claim C9: for every provider id other than `convex`, each domain-management
hook throws a "not implemented" error having issued no backend call, so the
domain verification subsystem is operational only on the Convex backend. -/
theorem domainHooks_convex_only (providerId : String) (h : providerId ≠ "convex") :
    useAddDomain providerId =
      HookOutcome.thrown [] (notImplementedMsg providerId "domains.add") ∧
    useVerifyDomain providerId =
      HookOutcome.thrown [] (notImplementedMsg providerId "domains.verify") ∧
    (∀ workspaceId, useListDomains providerId workspaceId =
      HookOutcome.thrown [] (notImplementedMsg providerId "domains.list")) ∧
    useRemoveDomain providerId =
      HookOutcome.thrown [] (notImplementedMsg providerId "domains.remove") ∧
    (∀ domainId, useGetVerificationInstructions providerId domainId =
      HookOutcome.thrown []
        (notImplementedMsg providerId "domains.getVerificationInstructions")) ∧
    StrContains (notImplementedMsg providerId "domains.add") "is not implemented" := by
  refine ⟨?_, ?_, fun _ => ?_, ?_, fun _ => ?_, ?_⟩
  · rw [useAddDomain, if_pos h]
  · rw [useVerifyDomain, if_pos h]
  · rw [useListDomains, if_pos h]
  · rw [useRemoveDomain, if_pos h]
  · simp only [useGetVerificationInstructions]
    rw [if_pos h]
  · refine ⟨"[" ++ (providerId ++ "] domains.add "),
      ". See docs/EDITIONING.md for self-host status.", ?_⟩
    rw [notImplementedMsg]
    have h2 : ("] " : String) ++ ("domains.add" ++ (" is not implemented. " ++
        "See docs/EDITIONING.md for self-host status.")) =
        "] domains.add " ++ ("is not implemented" ++
          ". See docs/EDITIONING.md for self-host status.") := rfl
    rw [h2]
    simp [String.append_assoc]

/-- Claim C9 witness: the self-host provider id triggers the throw in all five
hooks. -/
theorem domainHooks_convex_only_witness :
    useAddDomain "selfhost" =
      HookOutcome.thrown [] (notImplementedMsg "selfhost" "domains.add") ∧
    useVerifyDomain "selfhost" =
      HookOutcome.thrown [] (notImplementedMsg "selfhost" "domains.verify") ∧
    (∀ workspaceId, useListDomains "selfhost" workspaceId =
      HookOutcome.thrown [] (notImplementedMsg "selfhost" "domains.list")) ∧
    useRemoveDomain "selfhost" =
      HookOutcome.thrown [] (notImplementedMsg "selfhost" "domains.remove") ∧
    (∀ domainId, useGetVerificationInstructions "selfhost" domainId =
      HookOutcome.thrown []
        (notImplementedMsg "selfhost" "domains.getVerificationInstructions")) ∧
    StrContains (notImplementedMsg "selfhost" "domains.add") "is not implemented" :=
  domainHooks_convex_only "selfhost" (by decide)

/-! ## Workspace transformation (`apps/web` workspace hooks file) -/

/-- The raw Convex workspace document consumed by `transformWorkspace`: the
domain trust fields are optional on stored records. -/
structure ConvexWorkspaceDoc where
  _id : Nat
  name : String
  userId : Nat
  joinCode : String
  _creationTime : Nat
  domainVerified : Option Bool
  joinCodeEnabled : Option Bool
deriving DecidableEq, Repr

/-- The provider-agnostic `Workspace` type of `@kiiaren/core` (the fields
`transformWorkspace` produces). -/
structure Workspace where
  id : Nat
  name : String
  ownerId : Nat
  joinCode : String
  createdAt : Nat
  domainVerified : Bool
  joinCodeEnabled : Bool
deriving DecidableEq, Repr

/-- `transformWorkspace` from the workspace hooks: `w.domainVerified ?? false`
and `w.joinCodeEnabled ?? true`. -/
def transformWorkspace (w : ConvexWorkspaceDoc) : Workspace :=
  { id := w._id, name := w.name, ownerId := w.userId, joinCode := w.joinCode,
    createdAt := w._creationTime,
    domainVerified := w.domainVerified.getD false,
    joinCodeEnabled := w.joinCodeEnabled.getD true }

/-- Claim C10: a stored workspace record in which the domain trust fields are
absent is reported to the client as `domainVerified = false` and
`joinCodeEnabled = true` — a workspace that never entered the verification
flow behaves as unverified with join codes enabled. -/
theorem transformWorkspace_defaults (w : ConvexWorkspaceDoc)
    (hdv : w.domainVerified = none) (hjc : w.joinCodeEnabled = none) :
    (transformWorkspace w).domainVerified = false ∧
    (transformWorkspace w).joinCodeEnabled = true := by
  rw [transformWorkspace]
  rw [hdv, hjc]
  exact ⟨rfl, rfl⟩

/-- A stored workspace record predating the domain verification flow: both
trust fields absent. -/
def legacyWorkspaceDoc : ConvexWorkspaceDoc :=
  { _id := 4, name := "acme", userId := 9, joinCode := "ZZTOP1",
    _creationTime := 17, domainVerified := none, joinCodeEnabled := none }

/-- Claim C10 witness: the defaults at a concrete legacy record. -/
theorem transformWorkspace_defaults_witness :
    (transformWorkspace legacyWorkspaceDoc).domainVerified = false ∧
    (transformWorkspace legacyWorkspaceDoc).joinCodeEnabled = true :=
  transformWorkspace_defaults legacyWorkspaceDoc rfl rfl


/-! ## Domain claim store (`convex/domains.ts`, modelled) -/

/-- Modelled from the spec: `convex/domains.ts` (the `addDomain` mutation) is
not part of the repository snapshot — only its declaration
(`DomainProvider.addDomain` in `packages/core/src/domain/types.ts`) and its
callers are. Per the spec, the raw domain is normalized by trimming and
lower-casing. -/
def normalizeDomain (raw : String) : String :=
  String.mk ((trimStr raw).data.map Char.toLower)

/-- A claim counts as holding the domain while pending or verified; a failed
claim frees it. -/
def isActiveStatus : DomainStatus → Bool
  | DomainStatus.pending => true
  | DomainStatus.verified => true
  | DomainStatus.failed => false

/-- Some workspace (any workspace) already holds a pending or verified claim
for the normalized domain. -/
def domainClaimed (store : List Domain) (norm : String) : Bool :=
  store.any (fun c => c.domain == norm && isActiveStatus c.status)

/-- Outcome of `addDomain`. -/
inductive AddDomainOutcome where
  | ok (claim : Domain)
  | alreadyClaimed
  | invalidDomain
deriving DecidableEq, Repr

/-- Modelled from the spec: `addDomain(workspaceId, domain)` of
`convex/domains.ts` (not in the snapshot). It normalizes the domain (rejecting
empty input), fails with `already_claimed` if any workspace already holds a
pending/verified claim for the normalized domain, and otherwise inserts a
`pending` claim carrying a fresh verification token. The uniqueness check and
the insert are one atomic step, embedded as a single pure transition on the
store. -/
def addDomain (store : List Domain) (workspaceId : Nat) (rawDomain : String)
    (token : String) (newId now createdBy : Nat) : AddDomainOutcome × List Domain :=
  let norm := normalizeDomain rawDomain
  if norm.isEmpty then
    (AddDomainOutcome.invalidDomain, store)
  else if domainClaimed store norm then
    (AddDomainOutcome.alreadyClaimed, store)
  else
    let claim : Domain :=
      { id := newId, workspaceId := workspaceId, domain := norm,
        verificationToken := token, status := DomainStatus.pending,
        verifiedAt := none, createdAt := now, createdBy := createdBy }
    (AddDomainOutcome.ok claim, claim :: store)

/-- The cross-tenant uniqueness invariant: for every domain value at most one
claim in the store is pending or verified. -/
def UniqueActiveClaims (store : List Domain) : Prop :=
  ∀ dname, (store.filter
    (fun c => c.domain == dname && isActiveStatus c.status)).length ≤ 1

/-- No active claim for `norm` means the active filter for `norm` is empty. -/
theorem filter_active_eq_nil_of_not_claimed (store : List Domain) (norm : String)
    (h : domainClaimed store norm = false) :
    store.filter (fun c => c.domain == norm && isActiveStatus c.status) = [] := by
  rw [List.filter_eq_nil_iff]
  intro c hc
  rw [domainClaimed, List.any_eq_false] at h
  exact fun hcb => (h c hc) hcb

/-- Inserting a claim whose domain is not actively claimed preserves the
uniqueness invariant. -/
theorem uniqueActiveClaims_cons (store : List Domain) (c : Domain)
    (hinv : UniqueActiveClaims store)
    (hfree : domainClaimed store c.domain = false) :
    UniqueActiveClaims (c :: store) := by
  intro dname
  rw [List.filter_cons]
  by_cases hcond : (c.domain == dname && isActiveStatus c.status) = true
  · rw [if_pos hcond]
    have hdn : c.domain = dname := by
      have := (Bool.and_eq_true _ _).mp hcond
      exact beq_iff_eq.mp this.1
    rw [filter_active_eq_nil_of_not_claimed store dname (hdn ▸ hfree)]
    simp
  · rw [if_neg hcond]
    exact hinv dname

/-- Claim C1 (amended): (a) `addDomain` preserves the invariant that at most
one workspace holds a pending/verified claim for any domain; (b) for a
well-formed domain it fails with `already_claimed` — leaving the store
unchanged — whenever any workspace, including the caller's, already holds a
pending or verified claim for the normalized domain; (c) starting from a state
where the normalized domain is unclaimed, of two `addDomain` calls for the
same domain (any two workspaces) the first succeeds and the second fails with
`already_claimed`: exactly one success. The invariant is, however, not
maintained at all times by the system as a whole: re-running verification on a
`failed` claim performs no uniqueness re-check, so after another workspace has
re-claimed the freed domain, re-verification yields two active claims for one
domain (see the counterexample below). -/
theorem addDomain_unique_claims :
    (∀ store workspaceId rawDomain token newId now createdBy,
      UniqueActiveClaims store →
      UniqueActiveClaims
        (addDomain store workspaceId rawDomain token newId now createdBy).2) ∧
    (∀ store workspaceId rawDomain token newId now createdBy,
      (normalizeDomain rawDomain).isEmpty = false →
      domainClaimed store (normalizeDomain rawDomain) = true →
      addDomain store workspaceId rawDomain token newId now createdBy =
        (AddDomainOutcome.alreadyClaimed, store)) ∧
    (∀ store w1 w2 rawDomain t1 t2 id1 id2 n1 n2 cb1 cb2,
      (normalizeDomain rawDomain).isEmpty = false →
      domainClaimed store (normalizeDomain rawDomain) = false →
      ∃ claim,
        (addDomain store w1 rawDomain t1 id1 n1 cb1).1 = AddDomainOutcome.ok claim ∧
        (addDomain (addDomain store w1 rawDomain t1 id1 n1 cb1).2
            w2 rawDomain t2 id2 n2 cb2).1 = AddDomainOutcome.alreadyClaimed) := by
  refine ⟨?_, ?_, ?_⟩
  · intro store workspaceId rawDomain token newId now createdBy hinv
    rw [addDomain]
    by_cases hemp : (normalizeDomain rawDomain).isEmpty = true
    · rw [if_pos hemp]
      exact hinv
    · rw [if_neg hemp]
      by_cases hcl : domainClaimed store (normalizeDomain rawDomain) = true
      · rw [if_pos hcl]
        exact hinv
      · rw [Bool.not_eq_true] at hcl
        rw [if_neg (by rw [hcl]; exact Bool.false_ne_true)]
        exact uniqueActiveClaims_cons store _ hinv hcl
  · intro store workspaceId rawDomain token newId now createdBy hemp hcl
    rw [addDomain]
    rw [if_neg (by rw [hemp]; exact Bool.false_ne_true)]
    rw [if_pos hcl]
  · intro store w1 w2 rawDomain t1 t2 id1 id2 n1 n2 cb1 cb2 hemp hcl
    rw [addDomain]
    rw [if_neg (by rw [hemp]; exact Bool.false_ne_true)]
    rw [if_neg (by rw [hcl]; exact Bool.false_ne_true)]
    refine ⟨_, rfl, ?_⟩
    rw [addDomain]
    rw [if_neg (by rw [hemp]; exact Bool.false_ne_true)]
    have hcl2 : domainClaimed
        ((addDomain store w1 rawDomain t1 id1 n1 cb1).2)
        (normalizeDomain rawDomain) = true := by
      rw [addDomain]
      rw [if_neg (by rw [hemp]; exact Bool.false_ne_true)]
      rw [if_neg (by rw [hcl]; exact Bool.false_ne_true)]
      rw [domainClaimed, List.any_cons]
      simp [isActiveStatus]
    rw [addDomain] at hcl2
    rw [if_neg (by rw [hemp]; exact Bool.false_ne_true)] at hcl2
    rw [if_neg (by rw [hcl]; exact Bool.false_ne_true)] at hcl2
    rw [if_pos hcl2]


/-- Modelled from the spec: `api.domains.getById` of `convex/domains.ts` (not
in the snapshot) — the point lookup by claim id that `verifyDomain` runs
first. -/
def storeGetById (store : List Domain) (domainId : Nat) : Option Domain :=
  store.find? (fun d => d.id == domainId)

/-- Modelled from the spec: `internal.domains.updateStatus` of
`convex/domains.ts` (not in the snapshot) — "persist claim status = verified,
set `verifiedAt` = now" on a match and "persist claim status = failed"
otherwise, patching the claim record by id. -/
def applyStatusWrite (store : List Domain) (w : StatusWrite) : List Domain :=
  match w with
  | StatusWrite.verified domainId verifiedAt =>
      store.map (fun d => if d.id == domainId then
        { d with status := DomainStatus.verified, verifiedAt := some verifiedAt }
        else d)
  | StatusWrite.failed domainId =>
      store.map (fun d => if d.id == domainId then
        { d with status := DomainStatus.failed } else d)

/-- One `verifyDomain` invocation as a transition on the claim store: run the
handler over the store's own point lookup and apply the status writes it
issued, in order. -/
def verifyStep (store : List Domain) (dns : String → DnsQueryOutcome)
    (now domainId : Nat) : List Domain :=
  match verifyDomain (storeGetById store) dns now domainId with
  | Except.ok (_, writes) => writes.foldl applyStatusWrite store
  | Except.error _ => store

/-- The claim stores reachable through the domain engine's mutating
operations, starting from the empty store: `addDomain` inserts and
`verifyDomain` (re-)writes claim status. -/
inductive DomainReachable : List Domain → Prop where
  | init : DomainReachable []
  | add (store : List Domain) (workspaceId : Nat) (rawDomain token : String)
      (newId now createdBy : Nat) (h : DomainReachable store) :
      DomainReachable (addDomain store workspaceId rawDomain token newId now createdBy).2
  | verify (store : List Domain) (dns : String → DnsQueryOutcome)
      (now domainId : Nat) (h : DomainReachable store) :
      DomainReachable (verifyStep store dns now domainId)

/-- A DNS answer carrying the first workspace's challenge record. -/
def tok1Answer : DnsAnswer :=
  { name := "_kiiaren-verification.acme.com", type := 16, TTL := 300,
    data := "kiiaren-verification=tok1" }

/-- The breach trace: workspace 1 claims `acme.com` (claim id 10), a
verification attempt finds no records and marks it `failed`; the freed domain
is then claimed by workspace 2 (claim id 11, `pending`); finally the old
failed claim 10 is re-verified against a now-matching DNS answer, which writes
`verified` with no uniqueness re-check. -/
def breachStore : List Domain :=
  verifyStep
    ((addDomain
        (verifyStep ((addDomain [] 1 "acme.com" "tok1" 10 100 5).2)
          (fun _ => DnsQueryOutcome.ok none) 101 10)
        2 "acme.com" "tok2" 11 102 6).2)
    (fun _ => DnsQueryOutcome.ok (some [tok1Answer])) 103 10

/-- Claim C1 counterexample: the uniqueness invariant does not hold at all
times. The concrete trace of `breachStore` — built solely from the engine's
own transitions, as `DomainReachable` certifies — ends with two claims for
`acme.com` in status pending/verified held by two different workspaces:
re-verifying a failed claim performs no uniqueness re-check after the freed
domain was re-claimed. -/
theorem domainUniqueness_counterexample :
    DomainReachable breachStore ∧ ¬ UniqueActiveClaims breachStore := by
  constructor
  · exact DomainReachable.verify _ (fun _ => DnsQueryOutcome.ok (some [tok1Answer])) 103 10
      (DomainReachable.add _ 2 "acme.com" "tok2" 11 102 6
        (DomainReachable.verify _ (fun _ => DnsQueryOutcome.ok none) 101 10
          (DomainReachable.add _ 1 "acme.com" "tok1" 10 100 5 DomainReachable.init)))
  · intro h
    exact absurd (h "acme.com") (by decide)

/-- Claim C1 witness: from the empty store, adding `Acme.COM ` (which
normalizes to `acme.com`) for workspace 1 succeeds, and a second add of
`acme.com` for workspace 2 fails with `already_claimed`. -/
theorem addDomain_unique_claims_witness :
    ∃ claim,
      (addDomain [] 1 "Acme.COM " "tok1" 10 100 5).1 = AddDomainOutcome.ok claim ∧
      (addDomain (addDomain [] 1 "Acme.COM " "tok1" 10 100 5).2
          2 "acme.com" "tok2" 11 101 6).1 = AddDomainOutcome.alreadyClaimed := by
  have h := addDomain_unique_claims.2.2 [] 1 2 "Acme.COM " "tok1" "tok2" 10 11 100 101 5 6
  refine ?_
  have hemp : (normalizeDomain "Acme.COM ").isEmpty = false := by decide
  have hcl : domainClaimed [] (normalizeDomain "Acme.COM ") = false := by decide
  rcases h hemp hcl with ⟨claim, h1, _⟩
  refine ⟨claim, h1, ?_⟩
  decide


/-! ## Invite links (`convex/inviteLinks.ts`, modelled) -/

/-- `InviteLinkScope` from `types.ts`: workspace-wide or channel-scoped. -/
inductive InviteLinkScope where
  | workspace
  | channel (channelId : Nat)
deriving DecidableEq, Repr

/-- The `InviteLink` record from `types.ts`. -/
structure InviteLink where
  id : Nat
  workspaceId : Nat
  code : String
  createdBy : Nat
  createdAt : Nat
  expiresAt : Nat
  maxUses : Option Nat
  usedCount : Nat
  scope : InviteLinkScope
  revokedAt : Option Nat
deriving DecidableEq, Repr

/-- Modelled from the spec: `getInviteLinkByCode(code)` of
`convex/inviteLinks.ts` (not in the snapshot). Per the spec it "returns the
link only if it exists; does NOT filter by validity (callers must apply
`isRedeemable` for any policy decision)". -/
def getInviteLinkByCode (links : List InviteLink) (code : String) :
    Option InviteLink :=
  links.find? (fun l => l.code == code)

/-- Claim C6: `getInviteLinkByCode` returns a stored link with the requested
code whenever one exists — regardless of expiry, revocation or use count,
none of which it consults — and returns nothing exactly when no link with
that code exists. -/
theorem getInviteLinkByCode_no_validity_filter :
    (∀ links code l, getInviteLinkByCode links code = some l →
      l ∈ links ∧ l.code = code) ∧
    (∀ links code, getInviteLinkByCode links code = none ↔
      ∀ l ∈ links, l.code ≠ code) ∧
    (∀ links code, (getInviteLinkByCode links code).isSome = true ↔
      ∃ l ∈ links, l.code = code) := by
  refine ⟨?_, ?_, ?_⟩
  · intro links code l h
    rw [getInviteLinkByCode] at h
    have hp := @List.find?_some InviteLink (fun x => x.code == code) l links h
    exact ⟨List.mem_of_find?_eq_some h, beq_iff_eq.mp hp⟩
  · intro links code
    rw [getInviteLinkByCode, List.find?_eq_none]
    constructor
    · intro h l hl
      exact fun hc => (h l hl) (beq_iff_eq.mpr hc)
    · intro h l hl
      exact fun hc => (h l hl) (beq_iff_eq.mp hc)
  · intro links code
    rw [getInviteLinkByCode, List.find?_isSome]
    constructor
    · rintro ⟨l, hl, hc⟩
      exact ⟨l, hl, beq_iff_eq.mp hc⟩
    · rintro ⟨l, hl, hc⟩
      exact ⟨l, hl, beq_iff_eq.mpr hc⟩

/-- A revoked, expired, fully-used invite link, for instantiating theorems. -/
def deadLink : InviteLink :=
  { id := 0, workspaceId := 1, code := "DEAD01", createdBy := 2,
    createdAt := 0, expiresAt := 5, maxUses := some 1, usedCount := 1,
    scope := InviteLinkScope.workspace, revokedAt := some 4 }

/-- Claim C6 witness: a revoked, expired, fully-used link is still returned by
code. -/
theorem getInviteLinkByCode_no_validity_filter_witness :
    ((getInviteLinkByCode [deadLink] "DEAD01").isSome = true ↔
      ∃ l ∈ [deadLink], l.code = "DEAD01") :=
  getInviteLinkByCode_no_validity_filter.2.2 [deadLink] "DEAD01"

/-- A membership record: (userId, workspaceId). -/
structure Member where
  userId : Nat
  workspaceId : Nat
deriving DecidableEq, Repr

/-- The persisted invite state: the invite links and the membership records
redemption creates. -/
structure InviteState where
  links : List InviteLink
  members : List Member
deriving DecidableEq, Repr

/-- A distinct redemption failure reason, mirroring `InviteLinkError.reason`
of the error taxonomy (`not_found`, `revoked`, `expired`, `max_uses`,
`already_member`). -/
inductive RedeemReason where
  | notFound
  | revoked
  | expired
  | maxUses
  | alreadyMember
deriving DecidableEq, Repr

/-- Outcome of a redemption attempt. -/
inductive RedeemOutcome where
  | ok (workspaceId : Nat)
  | failure (reason : RedeemReason)
deriving DecidableEq, Repr

/-- Modelled from the spec: `createInviteLink` of `convex/inviteLinks.ts` (not
in the snapshot). `expiresInHours` defaults to 24; `expiresAt = now +
expiresInHours` hours in milliseconds; `usedCount` starts at 0 and the link
starts unrevoked. -/
def createInviteLink (workspaceId : Nat) (code : String) (createdBy now newId : Nat)
    (expiresInHours : Option Nat) (maxUses : Option Nat) (scope : InviteLinkScope) :
    InviteLink :=
  { id := newId, workspaceId := workspaceId, code := code, createdBy := createdBy,
    createdAt := now, expiresAt := now + (expiresInHours.getD 24) * 3600000,
    maxUses := maxUses, usedCount := 0, scope := scope, revokedAt := none }

/-- Modelled from the spec: `revokeInviteLink` of `convex/inviteLinks.ts` (not
in the snapshot): sets `revokedAt = now` on the link with the given id. -/
def revokeInviteLink (links : List InviteLink) (linkId now : Nat) :
    List InviteLink :=
  links.map (fun l => if l.id == linkId then { l with revokedAt := some now } else l)

/-- The link is at its use limit: `maxUses` is set and `usedCount` has
reached it. -/
def atMaxUses (l : InviteLink) : Bool :=
  match l.maxUses with
  | some m => decide (m ≤ l.usedCount)
  | none => false

/-- Modelled from the spec: `redeemInviteLink(code, userId)` of
`convex/inviteLinks.ts` (not in the snapshot). The checks short-circuit in the
spec's order — not found, revoked, expired, max uses, already a member — and
on success the use counter increment and the membership insert happen in one
atomic step, embedded as a single pure transition. -/
def redeemInviteLink (st : InviteState) (code : String) (userId now : Nat) :
    RedeemOutcome × InviteState :=
  match st.links.find? (fun l => l.code == code) with
  | none => (RedeemOutcome.failure RedeemReason.notFound, st)
  | some l =>
      if l.revokedAt.isSome then
        (RedeemOutcome.failure RedeemReason.revoked, st)
      else if l.expiresAt ≤ now then
        (RedeemOutcome.failure RedeemReason.expired, st)
      else if atMaxUses l then
        (RedeemOutcome.failure RedeemReason.maxUses, st)
      else if st.members.any
          (fun mb => mb.userId == userId && mb.workspaceId == l.workspaceId) then
        (RedeemOutcome.failure RedeemReason.alreadyMember, st)
      else
        (RedeemOutcome.ok l.workspaceId,
          { links := st.links.map
              (fun x => if x.id == l.id then { x with usedCount := x.usedCount + 1 } else x),
            members := { userId := userId, workspaceId := l.workspaceId } :: st.members })

/-- The invite states reachable through the engine's mutating operations,
starting from the empty store; `create` inserts with a fresh id (the store's
ids are unique document ids). -/
inductive InviteReachable : InviteState → Prop where
  | init : InviteReachable { links := [], members := [] }
  | create (st : InviteState) (workspaceId : Nat) (code : String)
      (createdBy now newId : Nat) (expiresInHours maxUses : Option Nat)
      (scope : InviteLinkScope)
      (h : InviteReachable st)
      (hfresh : ∀ l ∈ st.links, l.id ≠ newId) :
      InviteReachable { st with links := (createInviteLink workspaceId code createdBy now newId expiresInHours maxUses scope) :: st.links }
  | redeem (st : InviteState) (code : String) (userId now : Nat)
      (h : InviteReachable st) :
      InviteReachable (redeemInviteLink st code userId now).2
  | revoke (st : InviteState) (linkId now : Nat) (h : InviteReachable st) :
      InviteReachable { st with links := revokeInviteLink st.links linkId now }

/-- The usage bound for one link: `usedCount ≤ maxUses` when `maxUses` is set. -/
def UsageBounded (l : InviteLink) : Prop :=
  ∀ m, l.maxUses = some m → l.usedCount ≤ m

/-- The whole-state invariant proven over reachable states: link ids are
pairwise distinct and every link respects its usage bound. -/
def InviteInvariant (st : InviteState) : Prop :=
  st.links.Pairwise (fun a b => a.id ≠ b.id) ∧ ∀ l ∈ st.links, UsageBounded l


/-- In a list of pairwise-id-distinct links, two members with the same id are
the same link. -/
theorem eq_of_mem_of_id_eq (xs : List InviteLink)
    (hpw : xs.Pairwise (fun a b => a.id ≠ b.id)) (y l : InviteLink)
    (hy : y ∈ xs) (hl : l ∈ xs) (hid : y.id = l.id) : y = l := by
  by_contra hne
  have hsy : Symmetric (fun a b : InviteLink => a.id ≠ b.id) := by
    intro a b hab
    exact Ne.symm hab
  exact hpw.forall hsy hy hl hne hid

/-- The success-path update of `redeemInviteLink` keeps every link's id. -/
theorem redeemUpdate_id (l x : InviteLink) :
    (if x.id == l.id then { x with usedCount := x.usedCount + 1 } else x).id = x.id := by
  split
  · rfl
  · rfl

/-- `revokeInviteLink` keeps every link's id. -/
theorem revokeUpdate_id (linkId now : Nat) (x : InviteLink) :
    (if x.id == linkId then { x with revokedAt := some now } else x).id = x.id := by
  split
  · rfl
  · rfl

/-- `redeemInviteLink` preserves the invariant: failure paths leave the state
unchanged, and the success path increments only the found link, which its own
guard has just checked to be under its limit. -/
theorem redeem_preserves_invariant (st : InviteState) (code : String)
    (userId now : Nat) (hinv : InviteInvariant st) :
    InviteInvariant (redeemInviteLink st code userId now).2 := by
  obtain ⟨hpw, hbound⟩ := hinv
  rw [redeemInviteLink]
  cases hfind : st.links.find? (fun l => l.code == code) with
  | none => exact ⟨hpw, hbound⟩
  | some l =>
      simp only
      by_cases h1 : l.revokedAt.isSome = true
      · rw [if_pos h1]
        exact ⟨hpw, hbound⟩
      · rw [if_neg h1]
        by_cases h2 : l.expiresAt ≤ now
        · rw [if_pos h2]
          exact ⟨hpw, hbound⟩
        · rw [if_neg h2]
          by_cases h3 : atMaxUses l = true
          · rw [if_pos h3]
            exact ⟨hpw, hbound⟩
          · rw [if_neg h3]
            by_cases h4 : st.members.any
                (fun mb => mb.userId == userId && mb.workspaceId == l.workspaceId) = true
            · rw [if_pos h4]
              exact ⟨hpw, hbound⟩
            · rw [if_neg h4]
              constructor
              · refine List.Pairwise.map _ ?_ hpw
                intro a b hab
                rw [redeemUpdate_id l a, redeemUpdate_id l b]
                exact hab
              · intro x hx
                rcases List.mem_map.mp hx with ⟨y, hy, hxy⟩
                by_cases hid : (y.id == l.id) = true
                · have hyl : y = l :=
                    eq_of_mem_of_id_eq st.links hpw y l hy
                      (List.mem_of_find?_eq_some hfind) (beq_iff_eq.mp hid)
                  rw [if_pos hid] at hxy
                  subst hyl
                  intro m hm
                  rw [← hxy] at hm ⊢
                  simp only at hm ⊢
                  have hlt : ¬ m ≤ y.usedCount := by
                    intro hle
                    apply h3
                    rw [atMaxUses, hm]
                    simp [hle]
                  exact Nat.succ_le_of_lt (Nat.lt_of_not_le hlt)
                · rw [if_neg hid] at hxy
                  rw [← hxy]
                  exact hbound y hy

/-- Every reachable invite state satisfies the invariant: distinct link ids
and `usedCount ≤ maxUses` for every link with a limit. -/
theorem inviteInvariant_of_reachable (st : InviteState) (h : InviteReachable st) :
    InviteInvariant st := by
  induction h with
  | init =>
      exact ⟨List.Pairwise.nil, fun l hl => absurd hl (List.not_mem_nil l)⟩
  | create st workspaceId code createdBy now newId expiresInHours maxUses scope h hfresh ih =>
      obtain ⟨hpw, hbound⟩ := ih
      constructor
      · exact List.Pairwise.cons (fun b hb => (hfresh b hb).symm) hpw
      · intro l hl
        rcases List.mem_cons.mp hl with hl | hl
        · subst hl
          intro m _
          exact Nat.zero_le m
        · exact hbound l hl
  | redeem st code userId now h ih =>
      exact redeem_preserves_invariant st code userId now ih
  | revoke st linkId now h ih =>
      obtain ⟨hpw, hbound⟩ := ih
      constructor
      · rw [revokeInviteLink]
        refine List.Pairwise.map _ ?_ hpw
        intro a b hab
        rw [revokeUpdate_id linkId now a, revokeUpdate_id linkId now b]
        exact hab
      · rw [revokeInviteLink]
        intro x hx
        rcases List.mem_map.mp hx with ⟨y, hy, hxy⟩
        intro m hm
        by_cases hid : (y.id == linkId) = true
        · rw [if_pos hid] at hxy
          rw [← hxy] at hm ⊢
          exact hbound y hy m hm
        · rw [if_neg hid] at hxy
          rw [← hxy] at hm ⊢
          exact hbound y hy m hm

/-- Claim C7: (a) in every reachable invite state, every link with
`maxUses = N` satisfies `usedCount ≤ N`; (b) a redemption attempt on a link
that is at its limit (`usedCount ≥ maxUses`), once the earlier short-circuit
checks pass (found, unrevoked, unexpired), fails with the distinct reason
`max_uses` and leaves the whole state — `usedCount` included — unchanged, so
successful redemptions never overshoot the bound. -/
theorem inviteLink_max_uses_bound :
    (∀ st, InviteReachable st → ∀ l ∈ st.links, ∀ m, l.maxUses = some m →
      l.usedCount ≤ m) ∧
    (∀ st code userId now l,
      st.links.find? (fun x => x.code == code) = some l →
      l.revokedAt = none →
      now < l.expiresAt →
      ∀ m, l.maxUses = some m → m ≤ l.usedCount →
      redeemInviteLink st code userId now =
        (RedeemOutcome.failure RedeemReason.maxUses, st)) := by
  constructor
  · intro st h l hl m hm
    exact (inviteInvariant_of_reachable st h).2 l hl m hm
  · intro st code userId now l hfind hrev hexp m hm hle
    rw [redeemInviteLink, hfind]
    simp only
    rw [if_neg (by rw [hrev]; simp)]
    rw [if_neg (Nat.not_le.mpr hexp)]
    rw [if_pos (by rw [atMaxUses, hm]; simp [hle])]

/-- An unrevoked, unexpired invite link already at its single allowed use. -/
def fullLink : InviteLink :=
  { id := 3, workspaceId := 1, code := "FULL01", createdBy := 2,
    createdAt := 0, expiresAt := 100, maxUses := some 1, usedCount := 1,
    scope := InviteLinkScope.workspace, revokedAt := none }

/-- Claim C7 witness: the bound holds in the initial reachable state, and a
redemption attempt on a concrete at-limit link fails with `max_uses`, leaving
the state unchanged. -/
theorem inviteLink_max_uses_bound_witness :
    (∀ l ∈ (({ links := [], members := [] } : InviteState)).links,
      ∀ m, l.maxUses = some m → l.usedCount ≤ m) ∧
    redeemInviteLink { links := [fullLink], members := [] } "FULL01" 9 1 =
      (RedeemOutcome.failure RedeemReason.maxUses,
        { links := [fullLink], members := [] }) :=
  ⟨inviteLink_max_uses_bound.1 { links := [], members := [] } InviteReachable.init,
   inviteLink_max_uses_bound.2 { links := [fullLink], members := [] } "FULL01" 9 1
     fullLink rfl rfl (by decide) 1 rfl (by decide)⟩

end Kiiaren
